import Mathlib

/-!
Verification of the PL/Java type-coercion and function-binding subsystem.

Shallow embedding of the C sources:
* `arraySetNull` / `arrayIsNull` and the array coercion routines come from
  `Array.c`, `Float.c`, `Double.c`, `Integer.c`, `Boolean.c`
  (`src/unnamed/part_001`, `part_002`, `part_003`).
* The function binder (`Function_parseParameters`, `Function_init`,
  `Function_buildSignature`, `Function_getFunction`, `_Function_finalize`)
  comes from `Function.c` (`src/unnamed/part_000`).
* `PgObject_free` comes from `PgObject.c`.

Native machine values that the C code merely copies (jfloat / jdouble /
jint payloads, Datum) are modelled by the opaque value type `JVal`; the two
constants the coercion code writes itself (the literal `0` and `NAN`) get
dedicated constructors so that the substitution policy is visible.
Pointers into the JVM (classes, types) are modelled by the data the code
inspects; JNI lookup primitives are oracle parameters.
-/

namespace PLJava

/-! ### Null bitmaps (`Array.c`: `arraySetNull`, `arrayIsNull`)

A `bits8*` bitmap is a list of bytes (`Nat`s, stored mod 256); the C null
pointer is `none`.  `arraySetNull` returns the updated bitmap (explicit
state passing for `*bitmap = ...`); the `(bits8)` cast is the `% 256`. -/

def arraySetNull (bitmap : Option (List Nat)) (offset : Nat) (flag : Bool) :
    Option (List Nat) :=
  match bitmap with
  | none => none
  | some bytes =>
    let bitmask := 1 <<< (offset % 8)
    let i := offset / 8
    let b := bytes.getD i 0
    some (bytes.set i ((if flag then b &&& (255 ^^^ bitmask) else b ||| bitmask) % 256))

def arrayIsNull (bitmap : Option (List Nat)) (offset : Nat) : Bool :=
  match bitmap with
  | none => false
  | some bytes => (bytes.getD (offset / 8) 0) &&& (1 <<< (offset % 8)) == 0

/-! ### Native and managed array values -/

/-- Opaque element payload.  `zero` is the literal `0` the coercion loops
assign to a null slot, `nan` is the literal `NAN`; `v n` is any other bit
pattern, only ever copied. -/
inductive JVal where
  | zero
  | nan
  | v (n : Nat)
deriving DecidableEq, Repr, Inhabited

/-- A native PostgreSQL array (`ArrayType*`) as the coercion code reads it:
`ndim` (`ARR_NDIM`), `dims` (`ARR_DIMS`), the optional null bitmap
(`ARR_NULLBITMAP`; `ARR_HASNULL` is `bitmap.isSome`) and the packed data
area (`ARR_DATA_PTR`), which stores only the non-null payloads. -/
structure PgArr where
  ndim : Nat
  dims : List Nat
  bitmap : Option (List Nat)
  data : List JVal
deriving DecidableEq, Repr

/-- `ArrayGetNItems(ndim, dims)`: product of the first `ndim` extents. -/
def arrayGetNItems (ndim : Nat) (dims : List Nat) : Nat :=
  ((dims.take ndim).foldl (fun a b => a * b) 1)

/-- Managed primitive array as classified by the `csig` scan of the
coercion code: `one` is `"[F"`-shaped (1-D), `two` is `"[[F"` (2-D),
`higher` is any deeper class signature (`csig[2] == '['`). -/
inductive MPrimArr where
  | one (xs : List JVal)
  | two (xss : List (List JVal))
  | higher
deriving DecidableEq, Repr

/-! ### `_floatArray_coerceDatum` (`Float.c`), `_doubleArray_coerceDatum` (`Double.c`)

The 1-D branch with nulls walks the bitmap and advances the `values`
pointer only past non-null elements (`*values++`); nulls become `0`.
The 2-D branch with nulls tracks the consumed-null count `NaNc` and reads
payload `nc - NaNc`; nulls become `NAN` for the floating-point types. -/

def primArray1dNulls (bm : Option (List Nat)) :
    Nat → Nat → List JVal → List JVal
  | 0, _, _ => []
  | n + 1, idx, values =>
    if arrayIsNull bm idx then
      JVal.zero :: primArray1dNulls bm n (idx + 1) values
    else
      values.headD default :: primArray1dNulls bm n (idx + 1) values.tail

/-- Inner (`jdx`) loop of the 2-D branch: builds one inner array of length
`dim2`, returning it with the updated consumed-null count. -/
def primArray2dRow (bm : Option (List Nat)) (data : List JVal) (subst : JVal) :
    Nat → Nat → Nat → List JVal × Nat
  | 0, _, naNc => ([], naNc)
  | j + 1, nc, naNc =>
    if arrayIsNull bm nc then
      let r := primArray2dRow bm data subst j (nc + 1) (naNc + 1)
      (subst :: r.1, r.2)
    else
      let r := primArray2dRow bm data subst j (nc + 1) naNc
      (data.getD (nc - naNc) default :: r.1, r.2)

/-- Outer (`idx`) loop of the 2-D branch with nulls. -/
def primArray2dNulls (bm : Option (List Nat)) (data : List JVal) (subst : JVal)
    (dim2 : Nat) : Nat → Nat → Nat → List (List JVal)
  | 0, _, _ => []
  | i + 1, nc, naNc =>
    let r := primArray2dRow bm data subst dim2 nc naNc
    r.1 :: primArray2dNulls bm data subst dim2 i (nc + dim2) r.2

/-- Outer loop of the 2-D branch without nulls: each inner array is the
next `dim2` payloads (`JNI_setFloatArrayRegion` from `nc*sizeof`). -/
def primArray2dNoNulls (data : List JVal) (dim2 : Nat) :
    Nat → Nat → List (List JVal)
  | 0, _ => []
  | i + 1, nc => ((data.drop nc).take dim2) :: primArray2dNoNulls data dim2 i (nc + dim2)

def floatArray_coerceDatum (v : PgArr) : MPrimArr :=
  if v.ndim ≠ 2 then
    let nElems := arrayGetNItems v.ndim v.dims
    if v.bitmap.isSome then
      MPrimArr.one (primArray1dNulls v.bitmap nElems 0 v.data)
    else
      MPrimArr.one (v.data.take nElems)
  else
    let dim1 := v.dims.getD 0 0
    let dim2 := v.dims.getD 1 0
    if v.bitmap.isSome then
      MPrimArr.two (primArray2dNulls v.bitmap v.data JVal.nan dim2 dim1 0 0)
    else
      MPrimArr.two (primArray2dNoNulls v.data dim2 dim1 0)

def doubleArray_coerceDatum (v : PgArr) : MPrimArr :=
  if v.ndim ≠ 2 then
    let nElems := arrayGetNItems v.ndim v.dims
    if v.bitmap.isSome then
      MPrimArr.one (primArray1dNulls v.bitmap nElems 0 v.data)
    else
      MPrimArr.one (v.data.take nElems)
  else
    let dim1 := v.dims.getD 0 0
    let dim2 := v.dims.getD 1 0
    if v.bitmap.isSome then
      MPrimArr.two (primArray2dNulls v.bitmap v.data JVal.nan dim2 dim1 0 0)
    else
      MPrimArr.two (primArray2dNoNulls v.data dim2 dim1 0)

/-! ### `_floatArray_coerceObject` (`Float.c`)

`createArrayType`/`create2dArrayType` are called with `withNulls = false`,
so the produced native array never has a bitmap.  A class signature with
`csig[2] == '['` is rejected with the explicit error. -/

def floatArray_coerceObject (m : MPrimArr) : Except String PgArr :=
  match m with
  | MPrimArr.one xs =>
    Except.ok { ndim := 1, dims := [xs.length], bitmap := none, data := xs }
  | MPrimArr.two xss =>
    let nElems := xss.length
    let dim2 := (xss.getD 0 []).length
    let rows := (List.range nElems).map (fun i => (xss.getD i []).take dim2)
    let dataCopy := if 0 < dim2 then rows.flatten else []
    Except.ok { ndim := 2, dims := [nElems, dim2], bitmap := none, data := dataCopy }
  | MPrimArr.higher => Except.error "Higher dimensional arrays not supported"

/-! ### `_Array_coerceDatum`, `_Array_coerceObject` (`Array.c`)

The object-array pair is generic in the element Type Descriptor; its
`coerceDatum` / `coerceObject` members are the oracle parameters `f` / `g`.
A managed object slot is `Option JVal` (`none` is the JNI null reference). -/

/-- 1-D loop of `_Array_coerceDatum`: null slots stay null, non-null slots
consume the next packed payload (`fetch_att` plus pointer advance). -/
def objArray1d (f : JVal → JVal) (bm : Option (List Nat)) :
    Nat → Nat → List JVal → List (Option JVal)
  | 0, _, _ => []
  | n + 1, idx, values =>
    if arrayIsNull bm idx then
      none :: objArray1d f bm n (idx + 1) values
    else
      some (f (values.headD default)) :: objArray1d f bm n (idx + 1) values.tail

/-- `_Array_coerceDatum`: the `ARR_NDIM(v) != 2` branch walks the 1-D loop;
the 2-D branch only logs a warning, leaving every slot of the fresh object
array at its initial null. -/
def Array_coerceDatum (f : JVal → JVal) (v : PgArr) : List (Option JVal) :=
  let nElems := arrayGetNItems v.ndim v.dims
  if v.ndim ≠ 2 then objArray1d f v.bitmap nElems 0 v.data
  else List.replicate nElems none

/-- Managed object array as classified by the `csig` scan of
`_Array_coerceObject`: nested (`csig[1] == '['`) or flat. -/
inductive MObjArr where
  | one (xs : List (Option JVal))
  | two (xss : List (List (Option JVal)))
deriving DecidableEq, Repr

/-- Modelled from the spec: `construct_md_array` is the engine collaborator
(not among the sources) that builds a native array from parallel `values`
and `nulls` buffers, "recording nulls in a freshly allocated null-bitmap";
we record the per-element flags and values it is handed verbatim. -/
structure MdArray where
  ndims : Nat
  dims : List Nat
  lbounds : List Nat
  values : List JVal
  nulls : List Bool
deriving DecidableEq, Repr

/-- `_Array_coerceObject`, 1-D branch: a null object yields
`nulls[idx] = true, values[idx] = 0`, otherwise `Type_coerceObject` (`g`). -/
def Array_coerceObject (g : JVal → JVal) (m : MObjArr) : MdArray :=
  match m with
  | MObjArr.one xs =>
    { ndims := 1, dims := [xs.length], lbounds := [1],
      values := xs.map (fun o => match o with | none => JVal.zero | some ob => g ob),
      nulls := xs.map Option.isNone }
  | MObjArr.two xss =>
    let dim1 := xss.length
    let dim2 := (xss.getD 0 []).length
    let flat := xss.flatten
    { ndims := 2, dims := [dim1, dim2], lbounds := [1, 1],
      values := flat.map (fun o => match o with | none => JVal.zero | some ob => g ob),
      nulls := flat.map Option.isNone }

/-! ### Type replacement (`_Array_canReplaceType`, `_Double_canReplace`)

A `Type` carries its `TypeClass` name, the class's `canReplaceType`
member, the element type (null for non-arrays) and the boxed counterpart
`objectType` (null when absent).  The C null pointer is `Ty.none0`.
`CRImpl.array` is `_Array_canReplaceType`; `CRImpl.boxed c` is the
boxed-scalar member (`_Double_canReplace` et al.: same class, or the
primitive class `c`). -/

inductive CRImpl where
  | array
  | boxed (primCls : String)
  | dflt
deriving DecidableEq, Repr

inductive Ty where
  | none0
  | mk (cls : String) (impl : CRImpl) (elem : Ty) (objTy : Ty)
deriving DecidableEq, Repr

/-- `Type_getClass` (name of the `TypeClass`, standing for its address). -/
def Ty.clsF : Ty → String
  | Ty.none0 => ""
  | Ty.mk c _ _ _ => c

/-- `Type_getElementType`. -/
def Ty.elemF : Ty → Ty
  | Ty.none0 => Ty.none0
  | Ty.mk _ _ e _ => e

/-- `Type_getObjectType`. -/
def Ty.objTyF : Ty → Ty
  | Ty.none0 => Ty.none0
  | Ty.mk _ _ _ o => o

/-- `Type_canReplaceType`, dispatching on the class's member.
`CRImpl.dflt` is modelled from the spec: the default member (in `Type.c`,
not among the sources) accepts exactly the same `TypeClass` ("for
primitives, a boxed type may replace its primitive only in the
boxed-to-primitive direction"). -/
def Type_canReplaceType : Ty → Ty → Bool
  | Ty.none0, _ => false
  | Ty.mk c impl elem objTy, other =>
    match impl with
    | CRImpl.array =>
      let oe := other.elemF
      if oe = Ty.none0 then false
      else Type_canReplaceType elem oe || decide (objTy = other)
    | CRImpl.boxed primCls => c == other.clsF || other.clsF == primCls
    | CRImpl.dflt => c == other.clsF

/-- `java.lang.Double` Type Descriptor (`Double_initialize`). -/
def t_Double : Ty := Ty.mk "type.Double" (CRImpl.boxed "type.double") Ty.none0 Ty.none0

/-- `double` Type Descriptor; its `objectType` is `t_Double`. -/
def t_double : Ty := Ty.mk "type.double" CRImpl.dflt Ty.none0 t_Double

/-- `java.lang.Double[]` Type Descriptor (`Array_fromOid2` on `t_Double`;
element not primitive, so no `objectType`). -/
def t_DoubleArr : Ty := Ty.mk "type.Double[]" CRImpl.array t_Double Ty.none0

/-- `double[]` Type Descriptor (`Array_fromOid2` on `t_double`; element
primitive, so `objectType` is the boxed array). -/
def t_doubleArr : Ty := Ty.mk "type.double[]" CRImpl.array t_double t_DoubleArr

/-- The claim's replacement condition for a pair of array Type
Descriptors, stated from the spec's words: the element types are mutually
replaceable, or the candidate is exactly the declared type's boxed-array
counterpart. -/
def specArrayCanReplace (cand declared : Ty) : Prop :=
  (Type_canReplaceType cand.elemF declared.elemF = true ∧
   Type_canReplaceType declared.elemF cand.elemF = true) ∨
  cand = declared.objTyF

/-! ### `Function_parseParameters` (`Function.c`)

The explicit parameter declaration is scanned character by character; the
accumulated `StringInfo` token is a `List Char`.  The Type interface the
parser consults is generic: `javaName` is `Type_getJavaTypeName`,
`fromJavaType` is `Type_fromJavaType` (`none` is its lookup `ereport`),
`canReplace` is `Type_canReplaceType`.  The caller guarantees the input
ends with `')'`; running off the end is `unterminated`. -/

inductive ParseErr where
  | tooMany
  | tooFew
  | spaceSyntax
  | unknownType
  | cannotReplace
  | unterminated
deriving DecidableEq, Repr

/-- Token commit at `','` or `')'`: compare against the default, resolve a
replacement if the names differ.  In complex-return mode the last slot has
no `dfltIds` entry and resolves against `InvalidOid` (0).
(`idx < numParams` holds at every call; `numParams` is the allocation
length of `paramTypes`, hence the total `getD`.) -/
def commitParam {T : Type} [Inhabited T] (javaName : T → List Char)
    (fromJavaType : Nat → List Char → Option T) (canReplace : T → T → Bool)
    (returnComplex : Bool) (numParams : Nat) (dfltIds : List Nat)
    (params : List T) (idx : Nat) (sign : List Char) :
    Except ParseErr (List T) :=
  let deflt := params.getD idx default
  if javaName deflt = sign then Except.ok params
  else
    let did := if returnComplex ∧ idx = numParams - 1 then 0 else dfltIds.getD idx 0
    match fromJavaType did sign with
    | none => Except.error ParseErr.unknownType
    | some repl =>
      if canReplace repl deflt then Except.ok (params.set idx repl)
      else Except.error ParseErr.cannotReplace

def parseParams {T : Type} [Inhabited T] (javaName : T → List Char)
    (fromJavaType : Nat → List Char → Option T) (canReplace : T → T → Bool)
    (returnComplex : Bool) (numParams : Nat) (dfltIds : List Nat) :
    List T → Nat → List Char → Bool → List Char → Except ParseErr (List T)
  | _, _, _, _, [] => Except.error ParseErr.unterminated
  | params, idx, sign, spaceSeen, c :: rest =>
    if c.isWhitespace then
      parseParams javaName fromJavaType canReplace returnComplex numParams dfltIds
        params idx sign (if 0 < sign.length then true else spaceSeen) rest
    else if numParams ≤ idx then Except.error ParseErr.tooMany
    else if c = ',' ∨ c = ')' then
      match commitParam javaName fromJavaType canReplace returnComplex numParams
          dfltIds params idx sign with
      | Except.error e => Except.error e
      | Except.ok params' =>
        if c = ')' then
          if idx + 1 ≠ numParams then Except.error ParseErr.tooFew
          else Except.ok params'
        else
          parseParams javaName fromJavaType canReplace returnComplex numParams dfltIds
            params' (idx + 1) [] false rest
    else
      if spaceSeen then Except.error ParseErr.spaceSyntax
      else
        parseParams javaName fromJavaType canReplace returnComplex numParams dfltIds
          params idx (sign ++ [c]) spaceSeen rest

/-- The character stream of an explicit declaration with the given
comma-separated entries (the part after `'('`, ending in `')'`). -/
def declChars : List (List Char) → List Char
  | [] => [')']
  | [t] => t ++ [')']
  | t :: rest => t ++ ',' :: declChars rest

/-! ### `Function_init`: catalog-driven parameter/return determination

The catalog collaborators are oracle parameters: `typeOf` reads the
`pg_type` tuple of an oid, `fromOid` / `fromPgType` / `fromJavaType` are
the Type Registry constructors (opaque interned descriptors). -/

/-- The `typtype` column of a `pg_type` tuple; `'c'` marks a composite. -/
structure PgTypeForm where
  typtype : Char
deriving DecidableEq, Repr

/-- The `pg_proc` columns `Function_init` reads. -/
structure ProcForm where
  pronargs : Nat
  prorettype : Nat
  proretset : Bool
  proargtypes : List Nat
deriving DecidableEq, Repr

/-- The shape-relevant fields of a bound `struct Function_`. -/
structure FuncShape (T : Type) where
  returnComplex : Bool
  numParams : Nat
  paramTypes : List T
  returnType : T
deriving DecidableEq, Repr

def BOOLOID : Nat := 16

/-- The type-determination portion of `Function_init` (trigger branch and
the `pronargs`/`prorettype` branch; signature building and method
resolution are separate definitions below). -/
def Function_initTypes {T : Type} (fromJavaType : Nat → String → T)
    (fromOid : Nat → T) (fromPgType : Nat → PgTypeForm → T)
    (typeOf : Nat → PgTypeForm) (isTrigger : Bool) (proc : ProcForm) :
    FuncShape T :=
  if isTrigger then
    { returnComplex := false, numParams := 1,
      paramTypes := [fromJavaType 0 "org.postgresql.pljava.TriggerData"],
      returnType := fromJavaType 0 "void" }
  else
    let retTypeId := proc.prorettype
    let retPg := typeOf retTypeId
    let isComplex := ¬ proc.proretset ∧ retPg.typtype = 'c'
    let returnType :=
      if proc.proretset then fromJavaType retTypeId "org.postgresql.pljava.ResultSetProvider"
      else if retPg.typtype = 'c' then fromOid BOOLOID
      else fromPgType retTypeId retPg
    let numParams := if isComplex then proc.pronargs + 1 else proc.pronargs
    let inferred := (List.range proc.pronargs).map (fun idx =>
      let typeId := proc.proargtypes.getD idx 0
      let pg := typeOf typeId
      if pg.typtype = 'c' then fromJavaType 0 "org.postgresql.pljava.jdbc.SingleRowReader"
      else fromPgType typeId pg)
    let paramTypes :=
      if 0 < numParams then
        if isComplex then
          inferred ++ [fromJavaType retTypeId "org.postgresql.pljava.jdbc.SingleRowWriter"]
        else inferred
      else []
    { returnComplex := isComplex, numParams := numParams,
      paramTypes := paramTypes, returnType := returnType }

/-! ### `Function_buildSignature` and method resolution (`Function_init` tail)

`jniSig` is `Type_getJNISignature`, `isPrim` is `Type_isPrimitive`,
`objectType` is `Type_getObjectType`, and `getStaticMethodID` is the JNI
lookup oracle. -/

def Function_buildSignature {T : Type} (jniSig : T → String)
    (paramTypes : List T) (retType : T) : String :=
  "(" ++ String.join (paramTypes.map jniSig) ++ ")" ++ jniSig retType

/-- The member error carries the method name and the signature reported
(`PgObject_throwMemberError(methodName, origSign, ...)`). -/
structure BindError where
  methodName : String
  signature : String
deriving DecidableEq, Repr

/-- Method resolution with the boxed-return fallback: on failure with a
primitive return type, rebuild the signature with `Type_getObjectType` of
the return type and retry once; a failed retry reports the original
signature.  On success the returned pair is the (possibly boxed) return
type and the signature that resolved. -/
def Function_resolveMethod {T : Type} (jniSig : T → String) (isPrim : T → Bool)
    (objectType : T → T) (getStaticMethodID : String → String → Bool)
    (methodName : String) (paramTypes : List T) (returnType : T) :
    Except BindError (T × String) :=
  let sign := Function_buildSignature jniSig paramTypes returnType
  if getStaticMethodID methodName sign then Except.ok (returnType, sign)
  else if isPrim returnType then
    let objType := objectType returnType
    let sign2 := Function_buildSignature jniSig paramTypes objType
    if getStaticMethodID methodName sign2 then Except.ok (objType, sign2)
    else Except.error { methodName := methodName, signature := sign }
  else Except.error { methodName := methodName, signature := sign }

/-- Modelled from the spec: the default `Type_invoke` for an object-typed
return (`Type.c`, not among the sources) calls the resolved target and
passes the returned managed object to the type's `coerceObject`.  For
`java.lang.Double` that member is `_Double_coerceObject` (sources):
`null` coerces to `0`, otherwise `doubleValue` unwraps the box.  A managed
`Double` object is its wrapped bit pattern, a `Datum` the same. -/
def Double_coerceObject (doubleObj : Option Int) : Int :=
  match doubleObj with
  | none => 0
  | some x => x

/-- Invocation through a boxed `java.lang.Double` Function return type:
default `Type_invoke` followed by `_Double_coerceObject`. -/
def invokeBoxedDouble (callResult : Option Int) : Int :=
  Double_coerceObject callResult

/-- Invocation through the primitive `double` return type
(`_double_invoke`: `Float8GetDatum(pljava_Function_doubleInvoke(fn))`). -/
def invokePrimDouble (callResult : Int) : Int := callResult

/-! ### `_Function_finalize`, `PgObject_free` and the Function cache

Memory is modelled by addresses (`Nat`); a free trace is the list of
addresses passed to `pfree`, in order.  `paramTypes` holds the addresses
of the (shared, interned) Type Descriptors. -/

structure CFunction where
  selfAddr : Nat
  numParams : Nat
  paramTypes : List Nat
  arrayAddr : Option Nat
deriving DecidableEq, Repr

/-- `_Function_finalize`: with a non-null `paramTypes` buffer, walk the
`numParams` entries calling `PgObject_free` on each Type (whose own
finalizer aside, `PgObject_free` ends in `pfree(object)`), then `pfree`
the buffer. -/
def Function_finalize_frees (f : CFunction) : List Nat :=
  match f.arrayAddr with
  | none => []
  | some a => f.paramTypes.take f.numParams ++ [a]

/-- `PgObject_free` on a Function (the race-loser discard in
`Function_getFunction`): run `_Function_finalize`, then `pfree` the
Function itself. -/
def PgObject_free_Function (f : CFunction) : List Nat :=
  Function_finalize_frees f ++ [f.selfAddr]

/-- `Function_getFunction`: look up by oid; on a miss, create with the
caller's `isTrigger` flag and insert (`HashMap_putByOid` returns the
previous binding, freed if present — never the case sequentially). -/
def Function_getFunction {F : Type} (create : Nat → Bool → F)
    (cache : Nat → Option F) (functionId : Nat) (isTrigger : Bool) :
    F × (Nat → Option F) :=
  match cache functionId with
  | some func => (func, cache)
  | none =>
    let func := create functionId isTrigger
    (func, fun oid => if oid = functionId then some func else cache oid)

/-! ### Specification-side measures and concrete inputs -/

/-- Number of null elements among linear offsets `0 .. n-1`; the running
`NaNc`/consumed-null counters of the coercion loops equal this, so a
non-null offset `p` reads packed payload `p - nullCount bm p`. -/
def nullCount (bm : Option (List Nat)) (n : Nat) : Nat :=
  ((List.range n).filter (fun p => arrayIsNull bm p)).length

/-- A well-formed declaration entry: nonempty, and free of whitespace and
of the separator characters. -/
def cleanTok (t : List Char) : Prop :=
  t ≠ [] ∧ ∀ c ∈ t, c.isWhitespace = false ∧ c ≠ ',' ∧ c ≠ ')'

instance (t : List Char) : Decidable (cleanTok t) := by
  unfold cleanTok
  infer_instance

/-- A race-loser Function for a routine with two parameters of the same
interned type: both slots hold the shared Type Descriptor at address 100;
the private parameter array is at 200, the Function itself at 300. -/
def raceLoserFunction : CFunction :=
  { selfAddr := 300, numParams := 2, paramTypes := [100, 100], arrayAddr := some 200 }

/-- A concrete composite-returning routine: two parameters (oids 23 and 7),
return type oid 7; oid 7 is the composite type in `exTypeOf`. -/
def exProc : ProcForm := ⟨2, 7, false, [23, 7]⟩

def exTypeOf : Nat → PgTypeForm := fun o => ⟨if o = 7 then 'c' else 'b'⟩

/-- A 3-D native float array (2 × 2 × 2, no nulls). -/
def ex3dArr : PgArr :=
  { ndim := 3, dims := [2, 2, 2], bitmap := none,
    data := [JVal.v 1, JVal.v 2, JVal.v 3, JVal.v 4,
             JVal.v 5, JVal.v 6, JVal.v 7, JVal.v 8] }

/-- A 1-D native float array of two elements whose bitmap (byte `0b01`)
marks element 0 present and element 1 null; the packed data area holds the
single non-null payload. -/
def exNull1dArr : PgArr :=
  { ndim := 1, dims := [2], bitmap := some [1], data := [JVal.v 7] }

/-- A 2-D native array (2 × 2) whose bitmap byte `0b1001` marks linear
offsets 1 and 2 null; the packed data area holds the two non-null
payloads. -/
def ex2dNullArr : PgArr :=
  { ndim := 2, dims := [2, 2], bitmap := some [9], data := [JVal.v 10, JVal.v 11] }

/-- A 1-D native array of four elements, offsets 1 and 2 null
(bitmap byte `0b1001`). -/
def ex1dNullArr : PgArr :=
  { ndim := 1, dims := [4], bitmap := some [9], data := [JVal.v 10, JVal.v 11] }

/-! ## Theorems -/

/-! ### C9: the null-bitmap primitives -/

lemma clear_bit_and (b k : Nat) (hk : k < 8) :
    ((b &&& (255 ^^^ (1 <<< k))) % 256) &&& (1 <<< k) = 0 := by
  simp only [Nat.shiftLeft_eq, one_mul]
  rw [Nat.and_two_pow]
  have h256 : (256 : Nat) = 2 ^ 8 := by norm_num
  have h255 : (255 : Nat) = 2 ^ 8 - 1 := by norm_num
  rw [h256, Nat.testBit_mod_two_pow, Nat.testBit_land, h255,
    Nat.testBit_xor, Nat.testBit_two_pow_sub_one, Nat.testBit_two_pow_self]
  simp [hk]

lemma set_bit_and (b k : Nat) (hk : k < 8) :
    (((b ||| (1 <<< k)) % 256) &&& (1 <<< k)) ≠ 0 := by
  simp only [Nat.shiftLeft_eq, one_mul]
  rw [Nat.and_two_pow]
  have h256 : (256 : Nat) = 2 ^ 8 := by norm_num
  rw [h256, Nat.testBit_mod_two_pow, Nat.testBit_lor, Nat.testBit_two_pow_self]
  simp [hk]

/-- C9: for a non-null bitmap covering the offset, `arrayIsNull` after
`arraySetNull(bitmap, offset, flag)` returns exactly `flag` (a cleared bit
marks a null element, a set bit a present one); on a null bitmap pointer
`arraySetNull` is a no-op and `arrayIsNull` is `false` at every offset. -/
theorem arraySetNull_isNull_roundtrip (bytes : List Nat) (offset : Nat) (flag : Bool)
    (h : offset / 8 < bytes.length) :
    arrayIsNull (arraySetNull (some bytes) offset flag) offset = flag ∧
    (∀ off f, arraySetNull none off f = none) ∧
    (∀ off, arrayIsNull none off = false) := by
  refine ⟨?_, fun _ _ => rfl, fun _ => rfl⟩
  have hk : offset % 8 < 8 := Nat.mod_lt _ (by norm_num)
  simp only [arraySetNull, arrayIsNull]
  rw [List.getD_eq_getElem?_getD, List.getElem?_set_self h, Option.getD_some]
  cases flag with
  | true => exact beq_iff_eq.mpr (clear_bit_and _ _ hk)
  | false => exact beq_eq_false_iff_ne.mpr (set_bit_and _ _ hk)

theorem arraySetNull_isNull_roundtrip_witness :
    (3 / 8 < ([0] : List Nat).length) ∧
    (arrayIsNull (arraySetNull (some [0]) 3 true) 3 = true ∧
     (∀ off f, arraySetNull none off f = none) ∧
     (∀ off, arrayIsNull none off = false)) :=
  ⟨by decide, arraySetNull_isNull_roundtrip [0] 3 true (by decide)⟩

/-! ### C10: the Function cache ignores `isTrigger` on a hit -/

/-- C10: a cached Function Descriptor is returned by every later
`Function_getFunction` call for that oid regardless of its `isTrigger`
argument; starting from an unbound oid, the descriptor every later call
returns is the one the first call created with its own flag. -/
theorem Function_getFunction_cached {F : Type} (create : Nat → Bool → F)
    (cache : Nat → Option F) (oid : Nat) (f : F) (h : cache oid = some f) :
    (∀ b, (Function_getFunction create cache oid b).1 = f) ∧
    (∀ (cache0 : Nat → Option F) (b1 b2 : Bool), cache0 oid = none →
      (Function_getFunction create
          (Function_getFunction create cache0 oid b1).2 oid b2).1 = create oid b1) := by
  constructor
  · intro b
    simp [Function_getFunction, h]
  · intro cache0 b1 b2 h0
    simp [Function_getFunction, h0]

theorem Function_getFunction_cached_witness :
    ((fun o => if o = 5 then some 99 else none) 5 = some (99 : Nat)) ∧
    ((∀ b, (Function_getFunction (fun o b => if b then o + 1 else o)
        (fun o => if o = 5 then some 99 else none) 5 b).1 = 99) ∧
     (∀ (cache0 : Nat → Option Nat) (b1 b2 : Bool), cache0 5 = none →
       (Function_getFunction (fun o b => if b then o + 1 else o)
           (Function_getFunction (fun o b => if b then o + 1 else o) cache0 5 b1).2
           5 b2).1 = (fun (o : Nat) (b : Bool) => if b then o + 1 else o) 5 b1)) :=
  ⟨rfl, Function_getFunction_cached (fun o b => if b then o + 1 else o)
    (fun o => if o = 5 then some 99 else none) 5 99 rfl⟩

/-! ### C8: discarding a race-loser Function frees the shared Types -/

/-- C8: the code evaluated at the failing input.  `PgObject_free` on the
discarded duplicate runs `_Function_finalize`, which calls `PgObject_free`
on every entry of the parameter array before freeing the array: the shared
interned Type Descriptor at 100 is freed — twice, a double free — contrary
to the spec's rule that only the private parameter array is released. -/
theorem raceLoser_frees_shared_types :
    PgObject_free_Function raceLoserFunction = [100, 100, 200, 300] ∧
    100 ∈ PgObject_free_Function raceLoserFunction ∧
    (PgObject_free_Function raceLoserFunction).count 100 = 2 := by decide

/-! ### C2: boxed-return fallback in method resolution -/

/-- C2: a failed `GetStaticMethodID` with a primitive return type is
retried exactly once with the boxed counterpart substituted as the
signature's return type; a failed retry reports the target and the
original signature; a non-primitive failure is reported immediately; a
successful retry makes the boxed type the descriptor's return type, and
invocation through boxed `java.lang.Double` yields the wrapped
primitive-equivalent value. -/
theorem Function_resolveMethod_boxedFallback {T : Type} (jniSig : T → String)
    (isPrim : T → Bool) (objectType : T → T) (ex : String → String → Bool)
    (name : String) (ps : List T) (ret : T) :
    (ex name (Function_buildSignature jniSig ps ret) = true →
      Function_resolveMethod jniSig isPrim objectType ex name ps ret
        = Except.ok (ret, Function_buildSignature jniSig ps ret)) ∧
    (ex name (Function_buildSignature jniSig ps ret) = false → isPrim ret = true →
      (ex name (Function_buildSignature jniSig ps (objectType ret)) = true →
        Function_resolveMethod jniSig isPrim objectType ex name ps ret
          = Except.ok (objectType ret,
              Function_buildSignature jniSig ps (objectType ret))) ∧
      (ex name (Function_buildSignature jniSig ps (objectType ret)) = false →
        Function_resolveMethod jniSig isPrim objectType ex name ps ret
          = Except.error ⟨name, Function_buildSignature jniSig ps ret⟩)) ∧
    (ex name (Function_buildSignature jniSig ps ret) = false → isPrim ret = false →
      Function_resolveMethod jniSig isPrim objectType ex name ps ret
        = Except.error ⟨name, Function_buildSignature jniSig ps ret⟩) ∧
    (∀ v : Int, invokeBoxedDouble (some v) = invokePrimDouble v) := by
  refine ⟨?_, ?_, ?_, fun v => rfl⟩
  · intro h1
    simp [Function_resolveMethod, h1]
  · intro h1 h2
    constructor
    · intro h3
      simp [Function_resolveMethod, h1, h2, h3]
    · intro h3
      simp [Function_resolveMethod, h1, h2, h3]
  · intro h1 h2
    simp [Function_resolveMethod, h1, h2]

theorem Function_resolveMethod_boxedFallback_witness :
    ((fun (_ : String) (sig : String) => sig == "()Ljava/lang/Double;") "f" "()D" = false) ∧
    Function_resolveMethod (fun s => s) (fun s => s == "D")
        (fun _ => "Ljava/lang/Double;")
        (fun _ sig => sig == "()Ljava/lang/Double;") "f" [] "D"
      = Except.ok ("Ljava/lang/Double;", "()Ljava/lang/Double;") ∧
    invokeBoxedDouble (some 42) = invokePrimDouble 42 :=
  ⟨rfl,
   ((Function_resolveMethod_boxedFallback (fun s => s) (fun s => s == "D")
      (fun _ => "Ljava/lang/Double;") (fun _ sig => sig == "()Ljava/lang/Double;")
      "f" [] "D").2.1 rfl rfl).1 rfl,
   (Function_resolveMethod_boxedFallback (fun s : String => s) (fun s => s == "D")
      (fun _ => "Ljava/lang/Double;") (fun _ sig => sig == "()Ljava/lang/Double;")
      "f" [] "D").2.2.2 42⟩

/-! ### C3: complex-return binding shape -/

/-- C3: a non-trigger, non-set-returning routine with a composite catalog
return type binds with the complex-return flag set, boolean return type,
parameter count `pronargs + 1`, and the fixed row-writer managed type
appended after the catalog-inferred parameters. -/
theorem Function_initTypes_complexReturn {T : Type} (fromJavaType : Nat → String → T)
    (fromOid : Nat → T) (fromPgType : Nat → PgTypeForm → T)
    (typeOf : Nat → PgTypeForm) (proc : ProcForm)
    (hset : proc.proretset = false) (hc : (typeOf proc.prorettype).typtype = 'c') :
    (Function_initTypes fromJavaType fromOid fromPgType typeOf false proc).returnComplex
        = true ∧
    (Function_initTypes fromJavaType fromOid fromPgType typeOf false proc).returnType
        = fromOid BOOLOID ∧
    (Function_initTypes fromJavaType fromOid fromPgType typeOf false proc).numParams
        = proc.pronargs + 1 ∧
    (Function_initTypes fromJavaType fromOid fromPgType typeOf false proc).paramTypes
        = ((List.range proc.pronargs).map (fun idx =>
            let typeId := proc.proargtypes.getD idx 0
            let pg := typeOf typeId
            if pg.typtype = 'c' then
              fromJavaType 0 "org.postgresql.pljava.jdbc.SingleRowReader"
            else fromPgType typeId pg)) ++
          [fromJavaType proc.prorettype "org.postgresql.pljava.jdbc.SingleRowWriter"] ∧
    (Function_initTypes fromJavaType fromOid fromPgType typeOf false proc).paramTypes.length
        = proc.pronargs + 1 := by
  simp [Function_initTypes, hset, hc, Nat.succ_ne_zero]

theorem Function_initTypes_complexReturn_witness :
    (exProc.proretset = false ∧ (exTypeOf exProc.prorettype).typtype = 'c') ∧
    (Function_initTypes (fun o s => s ++ toString o) (fun o => "oid" ++ toString o)
        (fun o _ => "pg" ++ toString o) exTypeOf false exProc).paramTypes
      = ["pg23", "org.postgresql.pljava.jdbc.SingleRowReader0",
         "org.postgresql.pljava.jdbc.SingleRowWriter7"] := by
  refine ⟨⟨rfl, rfl⟩, ?_⟩
  have h := (Function_initTypes_complexReturn (fun o s => s ++ toString o)
    (fun o => "oid" ++ toString o) (fun o _ => "pg" ++ toString o)
    exTypeOf exProc rfl rfl).2.2.2.1
  rw [h]
  decide

/-! ### C7: array type replacement -/

/-- C7 counterexample: the primitive array `double[]` may replace the
declared boxed array `java.lang.Double[]` (the candidate's own boxed-array
counterpart equals the declared type), but the claim's condition fails
there: the element types are not mutually replaceable (`double` cannot
replace `java.lang.Double`), and the candidate is not the declared type's
boxed-array counterpart (the boxed array has none). -/
theorem Array_canReplaceType_claim_cex :
    Type_canReplaceType t_doubleArr t_DoubleArr = true ∧
    ¬ specArrayCanReplace t_doubleArr t_DoubleArr := by
  constructor
  · decide
  · intro h
    rcases h with ⟨h1, h2⟩ | h3
    · exact absurd h1 (by decide)
    · exact absurd h3 (by decide)

/-- C7 amended: an array candidate may replace a declared type iff the
declared type has an element type and either the candidate's element type
may replace the declared's element type (one direction), or the
candidate's own boxed-array counterpart is exactly the declared type; a
declared type without an element type is never replaced.  Concretely,
`java.lang.Double[]` replaces `double[]` through the element direction and
`double[]` replaces `java.lang.Double[]` through its boxed counterpart. -/
theorem Array_canReplaceType_spec :
    (∀ (c : String) (elem objTy other : Ty), other.elemF = Ty.none0 →
      Type_canReplaceType (Ty.mk c CRImpl.array elem objTy) other = false) ∧
    (∀ (c : String) (elem objTy other : Ty), other.elemF ≠ Ty.none0 →
      (Type_canReplaceType (Ty.mk c CRImpl.array elem objTy) other = true ↔
        (Type_canReplaceType elem other.elemF = true ∨ objTy = other))) ∧
    Type_canReplaceType t_DoubleArr t_doubleArr = true ∧
    Type_canReplaceType t_doubleArr t_DoubleArr = true := by
  refine ⟨?_, ?_, by decide, by decide⟩
  · intro c elem objTy other h
    simp [Type_canReplaceType, h]
  · intro c elem objTy other h
    simp [Type_canReplaceType, h]

theorem Array_canReplaceType_spec_witness :
    (t_double.elemF = Ty.none0 ∧
      Type_canReplaceType (Ty.mk "x[]" CRImpl.array t_double t_Double) t_double = false) ∧
    (t_doubleArr.elemF ≠ Ty.none0 ∧
      (Type_canReplaceType (Ty.mk "x[]" CRImpl.array t_Double Ty.none0) t_doubleArr = true ↔
        (Type_canReplaceType t_Double t_doubleArr.elemF = true ∨ Ty.none0 = t_doubleArr))) :=
  ⟨⟨by decide, Array_canReplaceType_spec.1 "x[]" t_double t_Double t_double (by decide)⟩,
   ⟨by decide, Array_canReplaceType_spec.2.1 "x[]" t_Double Ty.none0 t_doubleArr (by decide)⟩⟩

/-! ### C4: dimensionality above two -/

/-- C4 counterexample: in the native→managed direction a 3-D input is not
rejected: `_floatArray_coerceDatum` takes its `ARR_NDIM(v) != 2` branch
and produces a flat 1-D managed array with all eight payloads — flattened
output, no "not supported" error. -/
theorem floatArray_coerceDatum_3d_flattens :
    floatArray_coerceDatum ex3dArr =
      MPrimArr.one [JVal.v 1, JVal.v 2, JVal.v 3, JVal.v 4,
                    JVal.v 5, JVal.v 6, JVal.v 7, JVal.v 8] := by decide

/-- C4 amended: only the managed→native direction rejects dimensionality
above two with the explicit "not supported" error; the native→managed
direction sends every input whose native dimensionality differs from two
(three and higher included) through the 1-D path, flattening the payload
in storage order without error. -/
theorem array_dim_gt2_behavior :
    (floatArray_coerceObject MPrimArr.higher
      = Except.error "Higher dimensional arrays not supported") ∧
    (∀ v : PgArr, v.ndim ≠ 2 → v.bitmap = none →
      floatArray_coerceDatum v
        = MPrimArr.one (v.data.take (arrayGetNItems v.ndim v.dims))) ∧
    (∀ v : PgArr, v.ndim ≠ 2 → ∀ bs, v.bitmap = some bs →
      floatArray_coerceDatum v
        = MPrimArr.one (primArray1dNulls v.bitmap (arrayGetNItems v.ndim v.dims) 0 v.data)) := by
  refine ⟨rfl, ?_, ?_⟩
  · intro v h hb
    simp [floatArray_coerceDatum, h, hb]
  · intro v h bs hb
    simp [floatArray_coerceDatum, h, hb]

theorem array_dim_gt2_behavior_witness :
    (ex3dArr.ndim ≠ 2 ∧ ex3dArr.bitmap = none) ∧
    floatArray_coerceDatum ex3dArr
      = MPrimArr.one (ex3dArr.data.take (arrayGetNItems ex3dArr.ndim ex3dArr.dims)) :=
  ⟨⟨by decide, rfl⟩, array_dim_gt2_behavior.2.1 ex3dArr (by decide) rfl⟩

/-! ### C5: 1-D round trip with a null bitmap -/

/-! ### C1: explicit parameter declaration entry count -/

section Parser

variable {T : Type} [Inhabited T] (javaName : T → List Char)
  (fromJavaType : Nat → List Char → Option T) (canReplace : T → T → Bool)
  (returnComplex : Bool) (numParams : Nat) (dfltIds : List Nat)

lemma parseParams_accum (params : List T) (idx : Nat) (hidx : idx < numParams)
    (cs : List Char) (sign l : List Char)
    (hcs : ∀ c ∈ cs, c.isWhitespace = false ∧ c ≠ ',' ∧ c ≠ ')') :
    parseParams javaName fromJavaType canReplace returnComplex numParams dfltIds
        params idx sign false (cs ++ l)
      = parseParams javaName fromJavaType canReplace returnComplex numParams dfltIds
          params idx (sign ++ cs) false l := by
  induction cs generalizing sign with
  | nil => simp
  | cons c cs ih =>
    obtain ⟨hw, hc1, hc2⟩ := hcs c (by simp)
    rw [List.cons_append, parseParams,
      if_neg (show ¬ (c.isWhitespace = true) by simp [hw]),
      if_neg (Nat.not_le.mpr hidx),
      if_neg (show ¬ (c = ',' ∨ c = ')') by simp [hc1, hc2]),
      if_neg (show ¬ (false = true) by simp)]
    rw [ih (sign ++ [c]) (fun d hd => hcs d (by simp [hd]))]
    simp

lemma parseParams_tooMany (params : List T) (idx : Nat) (hidx : numParams ≤ idx)
    (c : Char) (hw : c.isWhitespace = false) (sign l : List Char) (sp : Bool) :
    parseParams javaName fromJavaType canReplace returnComplex numParams dfltIds
        params idx sign sp (c :: l)
      = Except.error ParseErr.tooMany := by
  rw [parseParams, if_neg (show ¬ (c.isWhitespace = true) by simp [hw]),
    if_pos hidx]

lemma commitParam_matched (params : List T) (idx : Nat) (sign : List Char)
    (h : javaName (params.getD idx default) = sign) :
    commitParam javaName fromJavaType canReplace returnComplex numParams dfltIds
        params idx sign
      = Except.ok params := by
  simp only [commitParam]
  rw [if_pos h]

lemma parseParams_comma (params : List T) (idx : Nat) (hidx : idx < numParams)
    (sign l : List Char)
    (hmatch : javaName (params.getD idx default) = sign) :
    parseParams javaName fromJavaType canReplace returnComplex numParams dfltIds
        params idx sign false (',' :: l)
      = parseParams javaName fromJavaType canReplace returnComplex numParams dfltIds
          params (idx + 1) [] false l := by
  rw [parseParams, if_neg (show ¬ ((',' : Char).isWhitespace = true) by decide),
    if_neg (Nat.not_le.mpr hidx),
    if_pos (Or.inl rfl : (',' : Char) = ',' ∨ (',' : Char) = ')'),
    commitParam_matched javaName fromJavaType canReplace returnComplex numParams
      dfltIds params idx sign hmatch]
  show (if (',' : Char) = ')' then
      (if idx + 1 ≠ numParams then Except.error ParseErr.tooFew
        else Except.ok params)
    else parseParams javaName fromJavaType canReplace returnComplex numParams
      dfltIds params (idx + 1) [] false l)
    = parseParams javaName fromJavaType canReplace returnComplex numParams
      dfltIds params (idx + 1) [] false l
  exact if_neg (by decide)

lemma parseParams_rparen (params : List T) (idx : Nat) (hidx : idx < numParams)
    (sign l : List Char)
    (hmatch : javaName (params.getD idx default) = sign) :
    parseParams javaName fromJavaType canReplace returnComplex numParams dfltIds
        params idx sign false (')' :: l)
      = (if idx + 1 ≠ numParams then Except.error ParseErr.tooFew
          else Except.ok params) := by
  rw [parseParams, if_neg (show ¬ ((')' : Char).isWhitespace = true) by decide),
    if_neg (Nat.not_le.mpr hidx),
    if_pos (Or.inr rfl : (')' : Char) = ',' ∨ (')' : Char) = ')'),
    commitParam_matched javaName fromJavaType canReplace returnComplex numParams
      dfltIds params idx sign hmatch]
  show (if (')' : Char) = ')' then
      (if idx + 1 ≠ numParams then Except.error ParseErr.tooFew
        else Except.ok params)
    else parseParams javaName fromJavaType canReplace returnComplex numParams
      dfltIds params (idx + 1) [] false l)
    = (if idx + 1 ≠ numParams then Except.error ParseErr.tooFew
        else Except.ok params)
  exact if_pos rfl

lemma parseParams_tokens (ts : List (List Char)) :
    ∀ (params : List T) (idx : Nat), ts ≠ [] →
    (∀ t ∈ ts, cleanTok t) →
    (∀ i, i < ts.length → idx + i < numParams →
        ts.getD i [] = javaName (params.getD (idx + i) default)) →
    ((idx + ts.length = numParams →
        parseParams javaName fromJavaType canReplace returnComplex numParams dfltIds
          params idx [] false (declChars ts) = Except.ok params) ∧
     (numParams < idx + ts.length →
        parseParams javaName fromJavaType canReplace returnComplex numParams dfltIds
          params idx [] false (declChars ts) = Except.error ParseErr.tooMany) ∧
     (idx + ts.length < numParams →
        parseParams javaName fromJavaType canReplace returnComplex numParams dfltIds
          params idx [] false (declChars ts) = Except.error ParseErr.tooFew)) := by
  induction ts with
  | nil => intro params idx hne; exact absurd rfl hne
  | cons t rest ih =>
    intro params idx _ hclean hmatch
    obtain ⟨htne, htchars⟩ := hclean t (by simp)
    have hmatch0 : idx < numParams → javaName (params.getD idx default) = t := by
      intro hlt
      have := hmatch 0 (by simp) (by simpa using hlt)
      simpa using this.symm
    rcases Nat.lt_or_ge idx numParams with hlt | hge
    · cases rest with
      | nil =>
        rw [show declChars [t] = t ++ [')'] from rfl,
          parseParams_accum javaName fromJavaType canReplace returnComplex numParams
            dfltIds params idx hlt t [] [')'] htchars,
          List.nil_append,
          parseParams_rparen javaName fromJavaType canReplace returnComplex numParams
            dfltIds params idx hlt t [] (hmatch0 hlt)]
        refine ⟨fun h => ?_, fun h => ?_, fun h => ?_⟩
        · simp at h
          rw [if_neg (show ¬ idx + 1 ≠ numParams by omega)]
        · exfalso; simp at h; omega
        · simp at h
          rw [if_pos (show idx + 1 ≠ numParams by omega)]
      | cons t2 r2 =>
        rw [show declChars (t :: t2 :: r2) = t ++ ',' :: declChars (t2 :: r2) from rfl,
          parseParams_accum javaName fromJavaType canReplace returnComplex numParams
            dfltIds params idx hlt t [] (',' :: declChars (t2 :: r2)) htchars,
          List.nil_append,
          parseParams_comma javaName fromJavaType canReplace returnComplex numParams
            dfltIds params idx hlt t (declChars (t2 :: r2)) (hmatch0 hlt)]
        have hrec := ih params (idx + 1) (by simp)
          (fun u hu => hclean u (by simp [hu]))
          (fun i hi hlti => by
            have := hmatch (i + 1) (by simpa using hi) (by omega)
            have harith : idx + (i + 1) = idx + 1 + i := by omega
            rw [harith] at this
            simpa using this)
        refine ⟨fun h => ?_, fun h => ?_, fun h => ?_⟩
        · exact hrec.1 (by simp at h ⊢; omega)
        · exact hrec.2.1 (by simp at h ⊢; omega)
        · exact hrec.2.2 (by simp at h ⊢; omega)
    · obtain ⟨c, cs, rfl⟩ := List.exists_cons_of_ne_nil htne
      obtain ⟨hw, _, _⟩ := htchars c (by simp)
      cases rest with
      | nil =>
        rw [show declChars [c :: cs] = c :: (cs ++ [')']) from rfl,
          parseParams_tooMany javaName fromJavaType canReplace returnComplex numParams
            dfltIds params idx hge c hw [] (cs ++ [')']) false]
        refine ⟨fun h => ?_, fun _ => rfl, fun h => ?_⟩
        · exfalso; simp at h; omega
        · exfalso; simp at h; omega
      | cons t2 r2 =>
        rw [show declChars ((c :: cs) :: t2 :: r2)
              = c :: (cs ++ ',' :: declChars (t2 :: r2)) from rfl,
          parseParams_tooMany javaName fromJavaType canReplace returnComplex numParams
            dfltIds params idx hge c hw [] (cs ++ ',' :: declChars (t2 :: r2)) false]
        refine ⟨fun h => ?_, fun _ => rfl, fun h => ?_⟩
        · exfalso; simp at h; omega
        · exfalso; simp at h; omega

end Parser

/-- C1 counterexample: a complex-returning routine with one catalog
parameter (`dfltIds = [17]`) binds with `numParams = 2` (writer slot
included).  The explicit declaration `"int)"` supplies exactly the one
catalog-inferred entry — M = N with the writer excluded, which the claim
says must succeed — yet `Function_parseParameters` raises the too-few
syntax error, because the expected count is `numParams`, writer slot
included. -/
theorem parseParams_claim_cex :
    parseParams (fun t : List Char => t) (fun _ s => some s) (fun a b => a == b)
      true 2 [17]
      ["int".data, "org.postgresql.pljava.jdbc.SingleRowWriter".data]
      0 [] false (declChars ["int".data])
      = Except.error ParseErr.tooFew := by rfl

/-- C1 amended: for an explicit declaration of M well-formed entries, each
matching its slot's inferred java type name, parsing fails with a syntax
error (too many / too few) if and only if M differs from the Function's
parameter count `numParams` — which, in complex-return mode, already
counts the synthetic trailing writer parameter, so the declaration must
include an entry for the writer as well. -/
theorem parseParams_count_iff {T : Type} [Inhabited T] (javaName : T → List Char)
    (fromJavaType : Nat → List Char → Option T) (canReplace : T → T → Bool)
    (returnComplex : Bool) (numParams : Nat) (dfltIds : List Nat)
    (ts : List (List Char)) (params : List T) (hne : ts ≠ [])
    (hclean : ∀ t ∈ ts, cleanTok t)
    (hmatch : ∀ i, i < ts.length → i < numParams →
        ts.getD i [] = javaName (params.getD i default)) :
    (parseParams javaName fromJavaType canReplace returnComplex numParams dfltIds
        params 0 [] false (declChars ts) = Except.ok params
      ↔ ts.length = numParams) ∧
    (ts.length ≠ numParams →
      parseParams javaName fromJavaType canReplace returnComplex numParams dfltIds
          params 0 [] false (declChars ts) = Except.error ParseErr.tooMany ∨
      parseParams javaName fromJavaType canReplace returnComplex numParams dfltIds
          params 0 [] false (declChars ts) = Except.error ParseErr.tooFew) := by
  have h := parseParams_tokens javaName fromJavaType canReplace returnComplex
    numParams dfltIds ts params 0 hne hclean
    (fun i hi hlt => by
      rw [Nat.zero_add]
      exact hmatch i hi (by simpa using hlt))
  simp only [Nat.zero_add] at h
  constructor
  · constructor
    · intro hok
      by_contra hneq
      rcases Nat.lt_or_ge numParams ts.length with hgt | hge2
      · rw [h.2.1 hgt] at hok
        exact Except.noConfusion hok
      · have hlt : ts.length < numParams := by omega
        rw [h.2.2 hlt] at hok
        exact Except.noConfusion hok
    · exact h.1
  · intro hneq
    rcases Nat.lt_or_ge numParams ts.length with hgt | hge2
    · exact Or.inl (h.2.1 hgt)
    · exact Or.inr (h.2.2 (by omega))

theorem parseParams_count_iff_witness :
    ((["int".data, "org.postgresql.pljava.jdbc.SingleRowWriter".data]
        : List (List Char)) ≠ [] ∧
      (∀ t ∈ (["int".data, "org.postgresql.pljava.jdbc.SingleRowWriter".data]
        : List (List Char)), cleanTok t)) ∧
    (parseParams (fun t : List Char => t) (fun _ s => some s) (fun a b => a == b)
        true 2 [17]
        ["int".data, "org.postgresql.pljava.jdbc.SingleRowWriter".data]
        0 [] false
        (declChars ["int".data, "org.postgresql.pljava.jdbc.SingleRowWriter".data])
      = Except.ok ["int".data, "org.postgresql.pljava.jdbc.SingleRowWriter".data]
      ↔ (["int".data, "org.postgresql.pljava.jdbc.SingleRowWriter".data]
          : List (List Char)).length = 2) :=
  ⟨⟨by decide, by decide⟩,
   (parseParams_count_iff (fun t : List Char => t) (fun _ s => some s)
      (fun a b => a == b) true 2 [17]
      ["int".data, "org.postgresql.pljava.jdbc.SingleRowWriter".data]
      ["int".data, "org.postgresql.pljava.jdbc.SingleRowWriter".data]
      (by decide) (by decide) (by decide)).1⟩

/-! ### Closed forms for the null-tracking coercion loops (C5, C6) -/

lemma range_map_succ_shift {α : Type} (g : Nat → α) (n : Nat) :
    (List.range (n + 1)).map g = g 0 :: (List.range n).map (fun t => g (t + 1)) := by
  rw [List.range_succ_eq_map, List.map_cons, List.map_map]
  rfl

lemma nullCount_succ (bm : Option (List Nat)) (n : Nat) :
    nullCount bm (n + 1) = nullCount bm n + (if arrayIsNull bm n then 1 else 0) := by
  unfold nullCount
  rw [List.range_succ, List.filter_append]
  cases h : arrayIsNull bm n <;> simp [h]

lemma nullCount_le (bm : Option (List Nat)) (n : Nat) : nullCount bm n ≤ n := by
  have := List.length_filter_le (fun p => arrayIsNull bm p) (List.range n)
  simpa [nullCount] using this

lemma headD_drop_getD {α : Type} (l : List α) (r : Nat) (d : α) :
    (l.drop r).headD d = l.getD r d := by
  rw [List.headD_eq_head?_getD, List.head?_drop, List.getD_eq_getElem?_getD]

/-- The 1-D primitive loop realises the closed form: offset `idx + t` gets
`0` when null and packed payload `(idx + t) - nullCount (idx + t)` (the
non-null rank) otherwise. -/
lemma primArray1dNulls_spec (bm : Option (List Nat)) (data : List JVal) :
    ∀ (n idx : Nat),
    primArray1dNulls bm n idx (data.drop (idx - nullCount bm idx))
      = (List.range n).map (fun t =>
          if arrayIsNull bm (idx + t) then JVal.zero
          else data.getD ((idx + t) - nullCount bm (idx + t)) default) := by
  intro n
  induction n with
  | zero => intro idx; simp [primArray1dNulls]
  | succ n ih =>
    intro idx
    rw [primArray1dNulls, range_map_succ_shift]
    have hshift : (fun t => if arrayIsNull bm (idx + (t + 1)) then JVal.zero
          else data.getD ((idx + (t + 1)) - nullCount bm (idx + (t + 1))) default)
        = (fun t => if arrayIsNull bm ((idx + 1) + t) then JVal.zero
          else data.getD (((idx + 1) + t) - nullCount bm ((idx + 1) + t)) default) := by
      funext t
      have harith : idx + (t + 1) = (idx + 1) + t := by omega
      rw [harith]
    cases h : arrayIsNull bm idx with
    | true =>
      rw [if_pos rfl]
      have hnc : nullCount bm (idx + 1) = nullCount bm idx + 1 := by
        rw [nullCount_succ, h]
        simp
      have hdrop : data.drop (idx - nullCount bm idx)
          = data.drop ((idx + 1) - nullCount bm (idx + 1)) := by
        rw [hnc]
        congr 1
        omega
      rw [hdrop, ih (idx + 1), hshift]
      simp [h]
    | false =>
      rw [if_neg (by simp)]
      have hle := nullCount_le bm idx
      have hnc : nullCount bm (idx + 1) = nullCount bm idx := by
        rw [nullCount_succ, h]
        simp
      have hdrop : (data.drop (idx - nullCount bm idx)).tail
          = data.drop ((idx + 1) - nullCount bm (idx + 1)) := by
        rw [List.tail_drop, hnc]
        congr 1
        omega
      rw [hdrop, ih (idx + 1), hshift, headD_drop_getD]
      simp [h]

/-- Same closed form for the 1-D loop of `_Array_coerceDatum` (null slots
are JNI null references, non-null slots the coerced payload). -/
lemma objArray1d_spec (f : JVal → JVal) (bm : Option (List Nat)) (data : List JVal) :
    ∀ (n idx : Nat),
    objArray1d f bm n idx (data.drop (idx - nullCount bm idx))
      = (List.range n).map (fun t =>
          if arrayIsNull bm (idx + t) then none
          else some (f (data.getD ((idx + t) - nullCount bm (idx + t)) default))) := by
  intro n
  induction n with
  | zero => intro idx; simp [objArray1d]
  | succ n ih =>
    intro idx
    rw [objArray1d, range_map_succ_shift]
    have hshift : (fun t => if arrayIsNull bm (idx + (t + 1)) then none
          else some (f (data.getD ((idx + (t + 1)) - nullCount bm (idx + (t + 1))) default)))
        = (fun t => if arrayIsNull bm ((idx + 1) + t) then none
          else some (f (data.getD (((idx + 1) + t) - nullCount bm ((idx + 1) + t)) default))) := by
      funext t
      have harith : idx + (t + 1) = (idx + 1) + t := by omega
      rw [harith]
    cases h : arrayIsNull bm idx with
    | true =>
      rw [if_pos rfl]
      have hnc : nullCount bm (idx + 1) = nullCount bm idx + 1 := by
        rw [nullCount_succ, h]
        simp
      have hdrop : data.drop (idx - nullCount bm idx)
          = data.drop ((idx + 1) - nullCount bm (idx + 1)) := by
        rw [hnc]
        congr 1
        omega
      rw [hdrop, ih (idx + 1), hshift]
      simp [h]
    | false =>
      rw [if_neg (by simp)]
      have hle := nullCount_le bm idx
      have hnc : nullCount bm (idx + 1) = nullCount bm idx := by
        rw [nullCount_succ, h]
        simp
      have hdrop : (data.drop (idx - nullCount bm idx)).tail
          = data.drop ((idx + 1) - nullCount bm (idx + 1)) := by
        rw [List.tail_drop, hnc]
        congr 1
        omega
      rw [hdrop, ih (idx + 1), hshift, headD_drop_getD]
      simp [h]

/-- The inner 2-D loop realises the closed form: position `nc + t` gets
the substitution constant when null and packed payload
`(nc + t) - nullCount (nc + t)` otherwise; the returned consumed-null
count is `nullCount (nc + j)`. -/
lemma primArray2dRow_spec (bm : Option (List Nat)) (data : List JVal) (subst : JVal) :
    ∀ (j nc : Nat),
    primArray2dRow bm data subst j nc (nullCount bm nc)
      = ((List.range j).map (fun t =>
          if arrayIsNull bm (nc + t) then subst
          else data.getD ((nc + t) - nullCount bm (nc + t)) default),
         nullCount bm (nc + j)) := by
  intro j
  induction j with
  | zero => intro nc; simp [primArray2dRow]
  | succ j ih =>
    intro nc
    rw [primArray2dRow, range_map_succ_shift]
    have hshift : (fun t => if arrayIsNull bm (nc + (t + 1)) then subst
          else data.getD ((nc + (t + 1)) - nullCount bm (nc + (t + 1))) default)
        = (fun t => if arrayIsNull bm ((nc + 1) + t) then subst
          else data.getD (((nc + 1) + t) - nullCount bm ((nc + 1) + t)) default) := by
      funext t
      have harith : nc + (t + 1) = (nc + 1) + t := by omega
      rw [harith]
    have harith2 : (nc + 1) + j = nc + (j + 1) := by omega
    cases h : arrayIsNull bm nc with
    | true =>
      rw [if_pos rfl]
      have hnc : nullCount bm nc + 1 = nullCount bm (nc + 1) := by
        rw [nullCount_succ, h]
        simp
      rw [hnc, ih (nc + 1), hshift, harith2]
      simp [h]
    | false =>
      rw [if_neg (by simp)]
      have hnc : nullCount bm nc = nullCount bm (nc + 1) := by
        rw [nullCount_succ, h]
        simp
      rw [hnc, ih (nc + 1), hshift, harith2]
      have hback : nullCount bm (nc + 1) = nullCount bm nc := hnc.symm
      simp [h, hback]

/-- The outer 2-D loop realises the nested closed form over linear
offsets `nc + r * dim2 + t`. -/
lemma primArray2dNulls_spec (bm : Option (List Nat)) (data : List JVal)
    (subst : JVal) (dim2 : Nat) :
    ∀ (i nc : Nat),
    primArray2dNulls bm data subst dim2 i nc (nullCount bm nc)
      = (List.range i).map (fun r =>
          (List.range dim2).map (fun t =>
            if arrayIsNull bm (nc + r * dim2 + t) then subst
            else data.getD ((nc + r * dim2 + t)
                - nullCount bm (nc + r * dim2 + t)) default)) := by
  intro i
  induction i with
  | zero => intro nc; simp [primArray2dNulls]
  | succ i ih =>
    intro nc
    rw [primArray2dNulls, primArray2dRow_spec, range_map_succ_shift]
    show (List.range dim2).map _ :: primArray2dNulls bm data subst dim2 i (nc + dim2)
        (nullCount bm (nc + dim2)) = _
    rw [ih (nc + dim2)]
    congr 1
    · apply List.map_congr_left
      intro t _
      have harith : nc + 0 * dim2 + t = nc + t := by ring_nf
      rw [harith]
    · apply List.map_congr_left
      intro r _
      apply List.map_congr_left
      intro t _
      have harith : nc + dim2 + r * dim2 + t = nc + (r + 1) * dim2 + t := by ring_nf
      rw [harith]

/-! ### C6: NaN versus zero null placeholders -/

/-- C6: with a null bitmap present, the 2-D branch of the float and double
native→managed coercions substitutes `NAN` for each null element, while
the 1-D branch substitutes `0`; in both, the running consumed-null count
places the payload for a non-null linear offset `p` at packed index
`p - nullCount p` (`nc - NaNc` in the code), keeping offsets correct
across interleaved nulls. -/
theorem primArray_nan_vs_zero (v : PgArr) (bs : List Nat) (d1 d2 : Nat)
    (hb : v.bitmap = some bs) (hnd : v.ndim = 2) (hd : v.dims = [d1, d2]) :
    (floatArray_coerceDatum v = MPrimArr.two ((List.range d1).map (fun r =>
        (List.range d2).map (fun t =>
          if arrayIsNull v.bitmap (r * d2 + t) then JVal.nan
          else v.data.getD ((r * d2 + t)
              - nullCount v.bitmap (r * d2 + t)) default))) ∧
     doubleArray_coerceDatum v = MPrimArr.two ((List.range d1).map (fun r =>
        (List.range d2).map (fun t =>
          if arrayIsNull v.bitmap (r * d2 + t) then JVal.nan
          else v.data.getD ((r * d2 + t)
              - nullCount v.bitmap (r * d2 + t)) default)))) ∧
    (∀ (w : PgArr) (bs2 : List Nat), w.bitmap = some bs2 → w.ndim ≠ 2 →
      (floatArray_coerceDatum w
          = MPrimArr.one ((List.range (arrayGetNItems w.ndim w.dims)).map (fun p =>
              if arrayIsNull w.bitmap p then JVal.zero
              else w.data.getD (p - nullCount w.bitmap p) default)) ∧
       doubleArray_coerceDatum w
          = MPrimArr.one ((List.range (arrayGetNItems w.ndim w.dims)).map (fun p =>
              if arrayIsNull w.bitmap p then JVal.zero
              else w.data.getD (p - nullCount w.bitmap p) default)))) := by
  have h0 : nullCount v.bitmap 0 = 0 := by simp [nullCount]
  have hs := primArray2dNulls_spec v.bitmap v.data JVal.nan d2 d1 0
  rw [h0] at hs
  simp only [Nat.zero_add] at hs
  constructor
  · constructor
    · unfold floatArray_coerceDatum
      rw [if_neg (by simp [hnd]), if_pos (by simp [hb]), hd,
        show ([d1, d2] : List Nat).getD 0 0 = d1 from rfl,
        show ([d1, d2] : List Nat).getD 1 0 = d2 from rfl, hs]
    · unfold doubleArray_coerceDatum
      rw [if_neg (by simp [hnd]), if_pos (by simp [hb]), hd,
        show ([d1, d2] : List Nat).getD 0 0 = d1 from rfl,
        show ([d1, d2] : List Nat).getD 1 0 = d2 from rfl, hs]
  · intro w bs2 hb2 hnd2
    have h0w : nullCount w.bitmap 0 = 0 := by simp [nullCount]
    have hs1 := primArray1dNulls_spec w.bitmap w.data (arrayGetNItems w.ndim w.dims) 0
    rw [h0w] at hs1
    simp only [Nat.zero_add, Nat.sub_zero, List.drop_zero] at hs1
    constructor
    · unfold floatArray_coerceDatum
      rw [if_pos hnd2, if_pos (by simp [hb2]), hs1]
    · unfold doubleArray_coerceDatum
      rw [if_pos hnd2, if_pos (by simp [hb2]), hs1]

theorem primArray_nan_vs_zero_witness :
    (ex2dNullArr.bitmap = some [9] ∧ ex2dNullArr.ndim = 2 ∧ ex2dNullArr.dims = [2, 2]) ∧
    floatArray_coerceDatum ex2dNullArr
      = MPrimArr.two [[JVal.v 10, JVal.nan], [JVal.nan, JVal.v 11]] ∧
    floatArray_coerceDatum ex1dNullArr
      = MPrimArr.one [JVal.v 10, JVal.zero, JVal.zero, JVal.v 11] := by
  refine ⟨⟨rfl, rfl, rfl⟩, ?_, ?_⟩
  · have h := (primArray_nan_vs_zero ex2dNullArr [9] 2 2 rfl rfl rfl).1.1
    rw [h]
    decide
  · have h := ((primArray_nan_vs_zero ex2dNullArr [9] 2 2 rfl rfl rfl).2
      ex1dNullArr [9] rfl (by decide)).1
    rw [h]
    decide

/-! ### C5 (amended): object-array 1-D round trip -/

/-- C5 amended: for the object-array coercion pair (`_Array_coerceDatum` /
`_Array_coerceObject`) with mutually inverse element coercions, the 1-D
round trip of a native array with a null bitmap reproduces the original
bitmap bit for bit — the per-element null flags handed to the native array
constructor equal `arrayIsNull` of the original bitmap at every offset —
and every non-null payload comes back unchanged, in order (null slots hold
the zero placeholder in the values buffer, which the constructor ignores);
the produced array is 1-D with the original extent.  (The primitive-array
pairs do not satisfy the original claim: see the counterexample.) -/
theorem Array_coerce_roundtrip_1d (f g : JVal → JVal) (v : PgArr) (n : Nat)
    (bs : List Nat) (hg : ∀ x, g (f x) = x) (h1 : v.ndim = 1)
    (hd : v.dims = [n]) (_hb : v.bitmap = some bs) :
    (Array_coerceObject g (MObjArr.one (Array_coerceDatum f v))).nulls
      = (List.range n).map (fun p => arrayIsNull v.bitmap p) ∧
    (Array_coerceObject g (MObjArr.one (Array_coerceDatum f v))).values
      = (List.range n).map (fun p =>
          if arrayIsNull v.bitmap p then JVal.zero
          else v.data.getD (p - nullCount v.bitmap p) default) ∧
    (Array_coerceObject g (MObjArr.one (Array_coerceDatum f v))).ndims = 1 ∧
    (Array_coerceObject g (MObjArr.one (Array_coerceDatum f v))).dims = [n] := by
  have h0 : nullCount v.bitmap 0 = 0 := by simp [nullCount]
  have hs := objArray1d_spec f v.bitmap v.data n 0
  rw [h0] at hs
  simp only [Nat.zero_add, Nat.sub_zero, List.drop_zero] at hs
  have hnit : arrayGetNItems v.ndim v.dims = n := by
    rw [h1, hd]
    simp [arrayGetNItems]
  have hm : Array_coerceDatum f v
      = (List.range n).map (fun p =>
          if arrayIsNull v.bitmap p then none
          else some (f (v.data.getD (p - nullCount v.bitmap p) default))) := by
    unfold Array_coerceDatum
    rw [if_pos (by simp [h1]), hnit, hs]
  simp only [Array_coerceObject, hm, List.map_map]
  refine ⟨?_, ?_, by trivial, by simp⟩
  · apply List.map_congr_left
    intro p _
    cases harr : arrayIsNull v.bitmap p <;> simp [harr]
  · apply List.map_congr_left
    intro p _
    cases harr : arrayIsNull v.bitmap p <;> simp [harr, hg]

theorem Array_coerce_roundtrip_1d_witness :
    ((∀ x : JVal, (fun y : JVal => y) ((fun y : JVal => y) x) = x) ∧
      exNull1dArr.ndim = 1 ∧ exNull1dArr.dims = [2] ∧
      exNull1dArr.bitmap = some [1]) ∧
    (Array_coerceObject (fun y : JVal => y)
        (MObjArr.one (Array_coerceDatum (fun y : JVal => y) exNull1dArr))).nulls
      = [false, true] ∧
    (Array_coerceObject (fun y : JVal => y)
        (MObjArr.one (Array_coerceDatum (fun y : JVal => y) exNull1dArr))).values
      = [JVal.v 7, JVal.zero] := by
  refine ⟨⟨fun x => rfl, rfl, rfl, rfl⟩, ?_, ?_⟩
  · have h := (Array_coerce_roundtrip_1d (fun y : JVal => y) (fun y : JVal => y)
      exNull1dArr 2 [1] (fun x => rfl) rfl rfl rfl).1
    rw [h]
    decide
  · have h := (Array_coerce_roundtrip_1d (fun y : JVal => y) (fun y : JVal => y)
      exNull1dArr 2 [1] (fun x => rfl) rfl rfl rfl).2.1
    rw [h]
    decide

/-- C5 counterexample: the primitive float round trip does not reconstruct
the bitmap: the input carries `some [1]` (element 1 null), yet the rebuilt
native array carries no bitmap at all (`createArrayType` is called with
`withNulls = false`) and stores `0` where the null was. -/
theorem floatArray_roundtrip_drops_bitmap :
    floatArray_coerceObject (floatArray_coerceDatum exNull1dArr) =
      Except.ok { ndim := 1, dims := [2], bitmap := none,
                  data := [JVal.v 7, JVal.zero] } ∧
    exNull1dArr.bitmap = some [1] ∧
    arrayIsNull exNull1dArr.bitmap 1 = true := ⟨rfl, rfl, rfl⟩

end PLJava
